import Mathlib

/-!
Shallow embedding of the sid-method signal scanner (src/sidbot_scanner.py).
Prices and indicator values are rationals; pandas NaN cells are `Option ℚ`
with `none` standing for NaN.  The candidate table keyed by symbol is a
partial map from symbols to rows.  Wall-clock timestamps are integers
passed in as the `now` parameter; earnings report dates are represented by
their day offset from the current date, so `days_to_earnings` is the stored
value itself.
-/

/-- Trade direction stored in the watchlist row. -/
inductive Direction
  | LONG
  | SHORT
deriving DecidableEq, Repr

/-- One OHLC bar of the daily market-data table.  `timestamp` is a day
number; by convention day numbers divisible by 7 fall on a Friday. -/
structure Bar where
  timestamp : ℤ
  opn : ℚ
  high : ℚ
  low : ℚ
  close : ℚ
deriving DecidableEq, Repr

instance : Inhabited Bar := ⟨⟨0, 0, 0, 0, 0⟩⟩

/-- The observability snapshot written in the `logic_trail` column. -/
structure LogicTrail where
  d_rsi : ℚ
  w_rsi : ℚ
  macd_ready : Bool
  touched_extreme : Bool
deriving DecidableEq, Repr

/-- One row of the `sid_method_signal_watchlist` table, as upserted by the
scanner.  `extreme_price` is an `Option` because the code reads it back
with a null check. -/
structure Candidate where
  direction : Direction
  extreme_price : Option ℚ
  stop_loss : ℚ
  entry_price : ℚ
  market_score : ℕ
  macd_cross : Bool
  pattern_confirmed : Bool
  spy_alignment : Bool
  is_ready : Bool
  last_updated : ℤ
  next_earnings : Option ℤ
  logic_trail : LogicTrail
  preferred_watchlist : Bool
deriving DecidableEq, Repr

/-- What one per-symbol iteration of the scan loop does to the watchlist
row of that symbol: nothing (`continue`), a delete, or an upsert. -/
inductive ScanOutcome
  | skip
  | remove
  | upsert (c : Candidate)
deriving DecidableEq, Repr

/-- The candidate store: a table keyed by symbol. -/
def Watchlist : Type := String → Option Candidate

/-- Exponentially weighted mean with smoothing factor `a`, seeded with
`acc`, emitting one value per remaining observation.  This is the
recurrence of `pandas.Series.ewm(adjust=False).mean()`. -/
def ewmGo (a : ℚ) (acc : ℚ) : List ℚ → List ℚ
  | [] => [acc]
  | y :: ys => acc :: ewmGo a ((1 - a) * acc + a * y) ys

/-- `Series.ewm(alpha=a, adjust=False).mean()` over a list: the first
output equals the first input, later outputs follow the recurrence. -/
def ewmAlpha (a : ℚ) : List ℚ → List ℚ
  | [] => []
  | x :: xs => ewmGo a x xs

/-- First differences `close.diff(1)` without the leading NaN cell. -/
def diffs (closes : List ℚ) : List ℚ :=
  (closes.zip closes.tail).map (fun p => p.2 - p.1)

/-- Gains series `diff.where(diff > 0, 0.0)`: the leading NaN cell of the
diff becomes 0 under the `where` fill, negatives are clipped to 0. -/
def upMoves : List ℚ → List ℚ
  | [] => []
  | c :: cs => 0 :: (diffs (c :: cs)).map (fun d => max d 0)

/-- Loss series `-diff.where(diff < 0, 0.0)`, clipped symmetrically. -/
def downMoves : List ℚ → List ℚ
  | [] => []
  | c :: cs => 0 :: (diffs (c :: cs)).map (fun d => max (0 - d) 0)

/-- The RSI value of `ta.momentum.RSIIndicator(window=14)` at index `i`:
Wilder smoothing of gains and losses with alpha 1/14, then
`np.where(emadn == 0, 100, 100 - 100 / (1 + emaup / emadn))`. -/
def rsiVal (closes : List ℚ) (i : ℕ) : ℚ :=
  let u := (ewmAlpha (1 / 14) (upMoves closes)).getD i 0
  let d := (ewmAlpha (1 / 14) (downMoves closes)).getD i 0
  if d = 0 then 100 else 100 - 100 / (1 + u / d)

/-- The full RSI(14) series.  `min_periods = 14` on the ewm makes the
first 13 cells NaN, everything later is the value of `rsiVal`. -/
def rsiTa (closes : List ℚ) : List (Option ℚ) :=
  (List.range closes.length).map (fun i => if i < 13 then none else some (rsiVal closes i))

/-- The `ta` library helper `_ema`: `ewm(span=w, min_periods=w,
adjust=False).mean()`, so cells before index `w - 1` are NaN. -/
def taEmaSpan (w : ℕ) (closes : List ℚ) : List (Option ℚ) :=
  (List.range closes.length).map
    (fun i => if i + 1 < w then none
     else some ((ewmAlpha (2 / ((w : ℚ) + 1)) closes).getD i 0))

/-- The MACD line of `ta.trend.MACD` (fast 12, slow 26): difference of the
two span EMAs, NaN wherever either operand is NaN. -/
def macdSeries (closes : List ℚ) : List (Option ℚ) :=
  List.zipWith
    (fun a b => match a, b with
      | some x, some y => some (x - y)
      | _, _ => none)
    (taEmaSpan 12 closes) (taEmaSpan 26 closes)

/-- Rounding to one decimal, used only in the `logic_trail` snapshot.
Python rounds half to even; the tie case is not exercised by any property
proved here, so plain half-up rounding is used. -/
def round1 (q : ℚ) : ℚ := (⌊q * 10 + 1 / 2⌋ : ℚ) / 10

/-- Python `float.is_integer()` on a rational. -/
def isIntegerQ (q : ℚ) : Bool := q.den == 1

/-- Week-ending-Friday bucket label of a day number: the least day `f` with
`t ≤ f` and `f ≡ 0 [ZMOD 7]` (day numbers divisible by 7 are Fridays). -/
def fridayBucket (t : ℤ) : ℤ := t + (0 - t) % 7

/-- Aggregate one weekly group: `open` is the first value, `high` the max,
`low` the min, `close` the last value; an empty bucket yields NaN cells
and is dropped by the `dropna` that follows the resample. -/
def weeklyAgg (g : List Bar) (lbl : ℤ) : Option Bar :=
  match g with
  | [] => none
  | b :: rest =>
    some { timestamp := lbl
           opn := b.opn
           high := (rest.map Bar.high).foldl max b.high
           low := (rest.map Bar.low).foldl min b.low
           close := (List.getLastD (b :: rest) b).close }

/-- `df.resample('W-FRI').agg({open: first, high: max, low: min, close:
last}).dropna()`: one aggregated bar per nonempty weekly bucket, in order
of first appearance (the input is ascending by timestamp). -/
def resampleWFRI (bars : List Bar) : List Bar :=
  ((bars.map (fun b => fridayBucket b.timestamp)).dedup).filterMap
    (fun lbl => weeklyAgg (bars.filter (fun b => fridayBucket b.timestamp = lbl)) lbl)

/-- `get_weekly_rsi_resampled`: weekly resample, require at least 15 weekly
rows, RSI(14) on the weekly closes, return the last and second-to-last
cells (NaN cells are `none`). -/
def get_weekly_rsi_resampled (bars : List Bar) : Option ℚ × Option ℚ :=
  let r := rsiTa ((resampleWFRI bars).map Bar.close)
  if (resampleWFRI bars).length < 15 then (none, none)
  else (r.getD (r.length - 1) none, r.getD (r.length - 2) none)

/-- The last row of the daily frame (`df.iloc[-1]`); the scan only reaches
this with at least 50 bars, so the default is never observed there. -/
def lastBar (bars : List Bar) : Bar := bars.getD (bars.length - 1) default

/-- `detect_reversal_pattern`: hammer for LONG (lower wick above twice the
body, upper wick below the body), shooting star mirrored for SHORT. -/
def detect_reversal_pattern (bars : List Bar) (direction : Direction) : Bool :=
  let last_row := lastBar bars
  let body := |last_row.close - last_row.opn|
  let wick_high := last_row.high - max last_row.opn last_row.close
  let wick_low := min last_row.opn last_row.close - last_row.low
  match direction with
  | .LONG => decide (body * 2 < wick_low ∧ wick_high < body)
  | .SHORT => decide (body * 2 < wick_high ∧ wick_low < body)

/-- `detect_macd_crossover`: plain span EMAs (12, 26) of the closes, the
signal line is the span-9 EMA of the MACD line, and the detector fires on
a cross between the last two cells in the favorable direction. -/
def detect_macd_crossover (bars : List Bar) (direction : Direction) : Bool :=
  let closes := bars.map Bar.close
  let exp1 := ewmAlpha (2 / 13) closes
  let exp2 := ewmAlpha (2 / 27) closes
  let macd_line := List.zipWith (fun a b => a - b) exp1 exp2
  let signal_line := ewmAlpha (2 / 10) macd_line
  match direction with
  | .LONG => decide (macd_line.getD (macd_line.length - 2) 0 < signal_line.getD (signal_line.length - 2) 0
      ∧ signal_line.getD (signal_line.length - 1) 0 < macd_line.getD (macd_line.length - 1) 0)
  | .SHORT => decide (signal_line.getD (signal_line.length - 2) 0 < macd_line.getD (macd_line.length - 2) 0
      ∧ macd_line.getD (macd_line.length - 1) 0 < signal_line.getD (signal_line.length - 1) 0)

/-- Modelled from the spec: `is_on_preferred_watchlist` checks membership
in the static curated list `PREF_WATCHLIST`; the module `pref_watchlist`
that holds the list is absent from the sources, so the list is a
parameter here. -/
def is_on_preferred_watchlist (pref_watchlist : List String) (symbol : String) : Bool :=
  pref_watchlist.contains symbol

/-- `calculate_formatted_stop`: LONG stops use `price - 1` when the price
is already integral and `floor(price)` otherwise; SHORT mirrors with
`price + 1` and `ceil`. -/
def calculate_formatted_stop (price : ℚ) (direction : Direction) : ℚ :=
  match direction with
  | .LONG => if isIntegerQ price then price - 1 else (⌊price⌋ : ℚ)
  | .SHORT => if isIntegerQ price then price + 1 else (⌈price⌉ : ℚ)

/-- The close column of the daily frame. -/
def closesOf (bars : List Bar) : List ℚ := bars.map Bar.close

/-- The daily RSI(14) series of the frame. -/
def rsiSeriesOf (bars : List Bar) : List (Option ℚ) := rsiTa (closesOf bars)

/-- `rsi_daily_ser.iloc[-1]`; with the 50-bar guard this cell is never
NaN, so the 0 default is never observed by the scan. -/
def currRsiOf (bars : List Bar) : ℚ :=
  ((rsiSeriesOf bars).getD ((rsiSeriesOf bars).length - 1) none).getD 0

/-- `rsi_daily_ser.iloc[-2]`. -/
def prevRsiOf (bars : List Bar) : ℚ :=
  ((rsiSeriesOf bars).getD ((rsiSeriesOf bars).length - 2) none).getD 0

/-- `(rsi_daily_ser.iloc[-28:] <= 30).any()`: NaN cells compare false. -/
def touchedOversoldOf (bars : List Bar) : Bool :=
  (((rsiSeriesOf bars).drop ((rsiSeriesOf bars).length - 28)).any
    (fun o => match o with | none => false | some v => decide (v ≤ 30)))

/-- `(rsi_daily_ser.iloc[-28:] >= 70).any()`. -/
def touchedOverboughtOf (bars : List Bar) : Bool :=
  (((rsiSeriesOf bars).drop ((rsiSeriesOf bars).length - 28)).any
    (fun o => match o with | none => false | some v => decide (70 ≤ v)))

/-- The fresh directional signal of this scan: LONG after an oversold
touch with the current RSI still at most 45, else SHORT after an
overbought touch with the current RSI at least 55, else nothing. -/
def directionSignal (bars : List Bar) : Option Direction :=
  if touchedOversoldOf bars = true ∧ currRsiOf bars ≤ 45 then some .LONG
  else if touchedOverboughtOf bars = true ∧ 55 ≤ currRsiOf bars then some .SHORT
  else none

/-- Direction resolution: the fresh signal of today takes priority, else
the stored direction of the existing row; with neither, the symbol is
skipped. -/
def finalDir (dsig : Option Direction) (existing : Option Candidate) : Option Direction :=
  match dsig, existing with
  | some d, _ => some d
  | none, some e => some e.direction
  | none, none => none

/-- `curr_w_rsi` with the NaN default never observed past the guard. -/
def wCurrOf (bars : List Bar) : ℚ := ((get_weekly_rsi_resampled bars).1).getD 0

/-- `prev_w_rsi`. -/
def wPrevOf (bars : List Bar) : ℚ := ((get_weekly_rsi_resampled bars).2).getD 0

/-- The MACD-line series of the daily closes. -/
def macdSeriesOf (bars : List Bar) : List (Option ℚ) := macdSeries (closesOf bars)

/-- `macd_line.iloc[-1]`. -/
def macdCurrOf (bars : List Bar) : ℚ :=
  ((macdSeriesOf bars).getD ((macdSeriesOf bars).length - 1) none).getD 0

/-- `macd_line.iloc[-2]`. -/
def macdPrevOf (bars : List Bar) : ℚ :=
  ((macdSeriesOf bars).getD ((macdSeriesOf bars).length - 2) none).getD 0

/-- Daily RSI slope gate: rising for LONG, falling for SHORT. -/
def d_rsi_okOf (bars : List Bar) (fd : Direction) : Bool :=
  if fd = .LONG then decide (prevRsiOf bars < currRsiOf bars)
  else decide (currRsiOf bars < prevRsiOf bars)

/-- Weekly RSI slope gate. -/
def w_rsi_okOf (bars : List Bar) (fd : Direction) : Bool :=
  if fd = .LONG then decide (wPrevOf bars < wCurrOf bars)
  else decide (wCurrOf bars < wPrevOf bars)

/-- MACD-line slope gate. -/
def macd_okOf (bars : List Bar) (fd : Direction) : Bool :=
  if fd = .LONG then decide (macdPrevOf bars < macdCurrOf bars)
  else decide (macdCurrOf bars < macdPrevOf bars)

/-- `days_to_earnings`: the day distance of the next report on or after
today, 999 when no report is known. -/
def daysToEarningsOf (nextEarnings : Option ℤ) : ℤ := nextEarnings.getD 999

/-- Broad-market alignment contribution: the SPY rise flag for LONG, its
negation for SHORT. -/
def spy_alignmentOf (fd : Direction) (spy_up : Bool) : Bool :=
  if fd = .LONG then spy_up else !spy_up

/-- `is_ready = all([d_rsi_ok, w_rsi_ok, macd_ok, days_to_earnings > 14])`. -/
def is_readyOf (bars : List Bar) (fd : Direction) (nextEarnings : Option ℤ) : Bool :=
  d_rsi_okOf bars fd && w_rsi_okOf bars fd && macd_okOf bars fd
    && decide (14 < daysToEarningsOf nextEarnings)

/-- `total_score`: the count of true soft confirmations. -/
def market_scoreOf (bars : List Bar) (fd : Direction) (spy_up preferred : Bool) : ℕ :=
  (detect_macd_crossover bars fd).toNat + (detect_reversal_pattern bars fd).toNat
    + (spy_alignmentOf fd spy_up).toNat + preferred.toNat

/-- The `logic_trail` snapshot. -/
def logicTrailOf (bars : List Bar) (fd : Direction) : LogicTrail :=
  { d_rsi := round1 (currRsiOf bars)
    w_rsi := round1 (wCurrOf bars)
    macd_ready := macd_okOf bars fd
    touched_extreme := if fd = .LONG then touchedOversoldOf bars else touchedOverboughtOf bars }

/-- The trailing extreme: seeded with the adverse extreme of the last bar,
and combined with a stored extreme by min (LONG) or max (SHORT). -/
def extremeOf (bars : List Bar) (fd : Direction) (stored : Option ℚ) : ℚ :=
  match stored with
  | none => if fd = .LONG then (lastBar bars).low else (lastBar bars).high
  | some x => if fd = .LONG then min (lastBar bars).low x else max (lastBar bars).high x

/-- The row upserted at the end of a per-symbol iteration. -/
def buildRow (bars : List Bar) (fd : Direction) (stored : Option ℚ)
    (spy_up preferred : Bool) (nextEarnings : Option ℤ) (now : ℤ) : Candidate :=
  { direction := fd
    extreme_price := some (extremeOf bars fd stored)
    stop_loss := calculate_formatted_stop (extremeOf bars fd stored) fd
    entry_price := (lastBar bars).close
    market_score := market_scoreOf bars fd spy_up preferred
    macd_cross := detect_macd_crossover bars fd
    pattern_confirmed := detect_reversal_pattern bars fd
    spy_alignment := spy_alignmentOf fd spy_up
    is_ready := is_readyOf bars fd nextEarnings
    last_updated := now
    next_earnings := nextEarnings
    logic_trail := logicTrailOf bars fd
    preferred_watchlist := preferred }

/-- One per-symbol iteration of `run_sidbot_scanner`: the 50-bar history
guard, the weekly-history guard, direction resolution, the room-boundary
invalidation that deletes the row, and otherwise the upsert. -/
def runSymbolScan (bars : List Bar) (existing : Option Candidate)
    (spy_up preferred : Bool) (nextEarnings : Option ℤ) (now : ℤ) : ScanOutcome :=
  if bars.length < 50 then .skip
  else if (get_weekly_rsi_resampled bars).1 = none then .skip
  else
    match finalDir (directionSignal bars) existing with
    | none => .skip
    | some fd =>
      if (fd = .LONG ∧ 45 < currRsiOf bars) ∨ (fd = .SHORT ∧ currRsiOf bars < 55) then .remove
      else .upsert (buildRow bars fd (existing.bind (fun e => e.extreme_price))
        spy_up preferred nextEarnings now)

/-- `spy_up`: latest SPY close above the previous one, `True` when fewer
than two SPY rows come back (the query is descending, index 0 newest). -/
def spyUp (spyCloses : List ℚ) : Bool :=
  if 1 < spyCloses.length then decide (spyCloses.getD 1 0 < spyCloses.getD 0 0) else true

/-- Upsert keyed on the symbol (`on_conflict="symbol"`). -/
def upsertRow (w : Watchlist) (s : String) (c : Candidate) : Watchlist :=
  fun t => if t = s then some c else w t

/-- Delete of the watchlist row of one symbol. -/
def deleteRow (w : Watchlist) (s : String) : Watchlist :=
  fun t => if t = s then none else w t

/-- Apply one per-symbol outcome to the store. -/
def applyOutcome (w : Watchlist) (s : String) : ScanOutcome → Watchlist
  | .skip => w
  | .remove => deleteRow w s
  | .upsert c => upsertRow w s c

/-- The effect of one per-symbol iteration on the row of that symbol. -/
def stepRow (bars : List Bar) (spy_up preferred : Bool) (nextEarnings : Option ℤ)
    (now : ℤ) (r : Option Candidate) : Option Candidate :=
  match runSymbolScan bars r spy_up preferred nextEarnings now with
  | .skip => r
  | .remove => none
  | .upsert c => some c

/-- Everything one scan run reads: the ticker universe, the daily bars per
symbol, the day distance of the next earnings report per symbol, the
static preferred list, and the two-row descending SPY close fetch. -/
structure MarketView where
  tickers : List String
  bars : String → List Bar
  nextEarnings : String → Option ℤ
  prefList : List String
  spyCloses : List ℚ

/-- The scan loop over an explicit symbol list. -/
def scanFold (v : MarketView) (now : ℤ) (l : List String) (w : Watchlist) : Watchlist :=
  l.foldl
    (fun acc sym => applyOutcome acc sym
      (runSymbolScan (v.bars sym) (acc sym) (spyUp v.spyCloses)
        (is_on_preferred_watchlist v.prefList sym) (v.nextEarnings sym) now))
    w

/-- `run_sidbot_scanner`: one full pass over the ticker universe. -/
def runScanner (v : MarketView) (now : ℤ) (w : Watchlist) : Watchlist :=
  scanFold v now v.tickers w

/-- Forget the `last_updated` stamp of a row, for statements that compare
rows modulo the write timestamp. -/
def eraseTs (c : Candidate) : Candidate := { c with last_updated := 0 }

/-- A bar whose four prices coincide. -/
def flatBar (t : ℤ) (p : ℚ) : Bar := ⟨t, p, p, p, p⟩

/-- Fifty daily bars with strictly decreasing closes (one point per bar),
spaced a week apart so each bar owns its own weekly bucket; the last bar
carries a high and low of 150 so the adverse extremes are visible. -/
def downBars : List Bar :=
  [flatBar 0 100, flatBar 7 99, flatBar 14 98, flatBar 21 97, flatBar 28 96, flatBar 35 95, 
   flatBar 42 94, flatBar 49 93, flatBar 56 92, flatBar 63 91, flatBar 70 90, flatBar 77 89, 
   flatBar 84 88, flatBar 91 87, flatBar 98 86, flatBar 105 85, flatBar 112 84, 
   flatBar 119 83, flatBar 126 82, flatBar 133 81, flatBar 140 80, flatBar 147 79, 
   flatBar 154 78, flatBar 161 77, flatBar 168 76, flatBar 175 75, flatBar 182 74, 
   flatBar 189 73, flatBar 196 72, flatBar 203 71, flatBar 210 70, flatBar 217 69, 
   flatBar 224 68, flatBar 231 67, flatBar 238 66, flatBar 245 65, flatBar 252 64, 
   flatBar 259 63, flatBar 266 62, flatBar 273 61, flatBar 280 60, flatBar 287 59, 
   flatBar 294 58, flatBar 301 57, flatBar 308 56, flatBar 315 55, flatBar 322 54, 
   flatBar 329 53, flatBar 336 52]
  ++ [⟨343, 51, 150, 150, 51⟩]

/-- Fifty weekly-spaced bars whose closes rise one point per bar for the
first 41 bars and then fall one point per bar: the RSI touches 100 during
the rally and sits near 50 at the end. -/
def riseFallBars : List Bar :=
  [flatBar 0 100, flatBar 7 101, flatBar 14 102, flatBar 21 103, flatBar 28 104, 
   flatBar 35 105, flatBar 42 106, flatBar 49 107, flatBar 56 108, flatBar 63 109, 
   flatBar 70 110, flatBar 77 111, flatBar 84 112, flatBar 91 113, flatBar 98 114, 
   flatBar 105 115, flatBar 112 116, flatBar 119 117, flatBar 126 118, flatBar 133 119, 
   flatBar 140 120, flatBar 147 121, flatBar 154 122, flatBar 161 123, flatBar 168 124, 
   flatBar 175 125, flatBar 182 126, flatBar 189 127, flatBar 196 128, flatBar 203 129, 
   flatBar 210 130, flatBar 217 131, flatBar 224 132, flatBar 231 133, flatBar 238 134, 
   flatBar 245 135, flatBar 252 136, flatBar 259 137, flatBar 266 138, flatBar 273 139, 
   flatBar 280 140, flatBar 287 139, flatBar 294 138, flatBar 301 137, flatBar 308 136, 
   flatBar 315 135, flatBar 322 134, flatBar 329 133, flatBar 336 132, flatBar 343 131]

/-- Twenty weekly-spaced constant bars: 20 complete weekly buckets. -/
def ex20Bars : List Bar :=
  [flatBar 0 100, flatBar 7 100, flatBar 14 100, flatBar 21 100, flatBar 28 100, 
   flatBar 35 100, flatBar 42 100, flatBar 49 100, flatBar 56 100, flatBar 63 100, 
   flatBar 70 100, flatBar 77 100, flatBar 84 100, flatBar 91 100, flatBar 98 100, 
   flatBar 105 100, flatBar 112 100, flatBar 119 100, flatBar 126 100, flatBar 133 100]

/-- A placeholder observability trail for stored fixture rows. -/
def trail0 : LogicTrail := ⟨0, 0, false, false⟩

/-- A stored SHORT row with trailing extreme 140. -/
def rowShortStored : Candidate :=
  ⟨.SHORT, some 140, 141, 139, 0, false, false, false, false, -5, none, trail0, false⟩

/-- A stored LONG row with trailing extreme 95. -/
def rowLongStored : Candidate :=
  ⟨.LONG, some 95, 94, 96, 0, false, false, false, false, -5, none, trail0, false⟩

/-- A stale row last updated a thousand days before the run. -/
def oldRow : Candidate :=
  ⟨.LONG, some 10, 9, 11, 0, false, false, false, false, -1000, none, trail0, false⟩

/-- Market view for the invalidation witness: the one tracked symbol holds
the rise-then-fall history. -/
def viewInvalid : MarketView :=
  ⟨["A"], fun _ => riseFallBars, fun _ => none, [], [2, 1]⟩

/-- Watchlist holding a stored LONG row for the tracked symbol. -/
def wlLongA : Watchlist := fun s => if s = "A" then some rowLongStored else none

/-- Market view for the oversold-entry and idempotence witnesses. -/
def viewDown : MarketView :=
  ⟨["A"], fun _ => downBars, fun _ => none, [], [2, 1]⟩

/-- The empty watchlist. -/
def wlEmpty : Watchlist := fun _ => none

/-- Market view for the retention counterexample: one tracked symbol with
no history at all. -/
def viewBare : MarketView :=
  ⟨["A"], fun _ => [], fun _ => none, [], []⟩

/-- Watchlist holding only a stale row for an untracked symbol. -/
def wlStaleB : Watchlist := fun s => if s = "B" then some oldRow else none

theorem length_rsiTa (closes : List ℚ) : (rsiTa closes).length = closes.length := by
  simp [rsiTa]

theorem getD_rsiTa (closes : List ℚ) {i : ℕ} (h : i < closes.length) :
    (rsiTa closes).getD i none = if i < 13 then none else some (rsiVal closes i) := by
  rw [List.getD_eq_getElem?_getD, rsiTa, List.getElem?_map, List.getElem?_range h]
  rfl

theorem get_weekly_lt {bars : List Bar} (h : (resampleWFRI bars).length < 15) :
    get_weekly_rsi_resampled bars = (none, none) := by
  simp [get_weekly_rsi_resampled, h]

theorem get_weekly_some {bars : List Bar} (h : 15 ≤ (resampleWFRI bars).length) :
    (get_weekly_rsi_resampled bars).1
        = some (rsiVal ((resampleWFRI bars).map Bar.close) ((resampleWFRI bars).length - 1))
      ∧ (get_weekly_rsi_resampled bars).2
        = some (rsiVal ((resampleWFRI bars).map Bar.close) ((resampleWFRI bars).length - 2)) := by
  have hlen : ((resampleWFRI bars).map Bar.close).length = (resampleWFRI bars).length :=
    List.length_map _ _
  have hr : (rsiTa ((resampleWFRI bars).map Bar.close)).length = (resampleWFRI bars).length := by
    rw [length_rsiTa, hlen]
  rw [get_weekly_rsi_resampled]
  simp only [if_neg (by omega : ¬ (resampleWFRI bars).length < 15)]
  rw [hr]
  constructor
  · rw [getD_rsiTa _ (by omega), if_neg (by omega)]
  · rw [getD_rsiTa _ (by omega), if_neg (by omega)]

theorem get_weekly_fst_ne_none {bars : List Bar} (h : 15 ≤ (resampleWFRI bars).length) :
    ¬ (get_weekly_rsi_resampled bars).1 = none := by
  rw [(get_weekly_some h).1]
  simp

theorem currRsi_eq_rsiVal {bars : List Bar} (h50 : 50 ≤ bars.length) :
    currRsiOf bars = rsiVal (closesOf bars) (bars.length - 1) := by
  have hlen : (closesOf bars).length = bars.length := List.length_map _ _
  have hr : (rsiSeriesOf bars).length = bars.length := by
    rw [rsiSeriesOf, length_rsiTa, hlen]
  rw [currRsiOf, hr, rsiSeriesOf, getD_rsiTa _ (by omega), if_neg (by omega)]
  rfl

theorem touched_oversold_of_curr {bars : List Bar} (h50 : 50 ≤ bars.length)
    (h30 : currRsiOf bars ≤ 30) : touchedOversoldOf bars = true := by
  have hlen : (closesOf bars).length = bars.length := List.length_map _ _
  have hr : (rsiSeriesOf bars).length = bars.length := by
    rw [rsiSeriesOf, length_rsiTa, hlen]
  have hcell : (rsiSeriesOf bars)[bars.length - 1]?
      = some (some (rsiVal (closesOf bars) (bars.length - 1))) := by
    rw [rsiSeriesOf, rsiTa, List.getElem?_map, List.getElem?_range (by omega)]
    rw [Option.map_some']
    rw [if_neg (by omega)]
  rw [touchedOversoldOf, List.any_eq_true]
  refine ⟨some (rsiVal (closesOf bars) (bars.length - 1)), ?_, ?_⟩
  · apply List.getElem?_mem (n := 27)
    rw [List.getElem?_drop]
    rw [show (rsiSeriesOf bars).length - 28 + 27 = bars.length - 1 by omega]
    exact hcell
  · have := currRsi_eq_rsiVal h50
    simp only [decide_eq_true_eq]
    rw [← this]
    exact h30

theorem dsig_long {bars : List Bar} (h50 : 50 ≤ bars.length)
    (h30 : currRsiOf bars ≤ 30) : directionSignal bars = some .LONG := by
  rw [directionSignal,
    if_pos ⟨touched_oversold_of_curr h50 h30, by linarith⟩]

theorem scan_skip_short {bars : List Bar} {ex : Option Candidate} {spy pref : Bool}
    {ne : Option ℤ} {now : ℤ} (h50 : bars.length < 50) :
    runSymbolScan bars ex spy pref ne now = .skip := by
  rw [runSymbolScan, if_pos h50]

theorem scan_skip_weekly {bars : List Bar} {ex : Option Candidate} {spy pref : Bool}
    {ne : Option ℤ} {now : ℤ} (h50 : ¬ bars.length < 50)
    (hw : (get_weekly_rsi_resampled bars).1 = none) :
    runSymbolScan bars ex spy pref ne now = .skip := by
  rw [runSymbolScan, if_neg h50, if_pos hw]

theorem scan_skip_nodir {bars : List Bar} {ex : Option Candidate} {spy pref : Bool}
    {ne : Option ℤ} {now : ℤ} (h50 : ¬ bars.length < 50)
    (hw : ¬ (get_weekly_rsi_resampled bars).1 = none)
    (hfd : finalDir (directionSignal bars) ex = none) :
    runSymbolScan bars ex spy pref ne now = .skip := by
  rw [runSymbolScan, if_neg h50, if_neg hw, hfd]

theorem scan_remove {bars : List Bar} {ex : Option Candidate} {spy pref : Bool}
    {ne : Option ℤ} {now : ℤ} {fd : Direction} (h50 : ¬ bars.length < 50)
    (hw : ¬ (get_weekly_rsi_resampled bars).1 = none)
    (hfd : finalDir (directionSignal bars) ex = some fd)
    (hinv : (fd = .LONG ∧ 45 < currRsiOf bars) ∨ (fd = .SHORT ∧ currRsiOf bars < 55)) :
    runSymbolScan bars ex spy pref ne now = .remove := by
  rw [runSymbolScan, if_neg h50, if_neg hw, hfd]
  simp only [if_pos hinv]

theorem scan_upsert {bars : List Bar} {ex : Option Candidate} {spy pref : Bool}
    {ne : Option ℤ} {now : ℤ} {fd : Direction} (h50 : ¬ bars.length < 50)
    (hw : ¬ (get_weekly_rsi_resampled bars).1 = none)
    (hfd : finalDir (directionSignal bars) ex = some fd)
    (hninv : ¬ ((fd = .LONG ∧ 45 < currRsiOf bars) ∨ (fd = .SHORT ∧ currRsiOf bars < 55))) :
    runSymbolScan bars ex spy pref ne now
      = .upsert (buildRow bars fd (ex.bind (fun e => e.extreme_price)) spy pref ne now) := by
  rw [runSymbolScan, if_neg h50, if_neg hw, hfd]
  simp only [if_neg hninv]

theorem extremeOf_idem (bars : List Bar) (fd : Direction) (st : Option ℚ) :
    extremeOf bars fd (some (extremeOf bars fd st)) = extremeOf bars fd st := by
  cases st with
  | none =>
    cases fd <;> simp [extremeOf]
  | some x =>
    cases fd
    · show min (lastBar bars).low (min (lastBar bars).low x) = min (lastBar bars).low x
      rw [← min_assoc, min_self]
    · show max (lastBar bars).high (max (lastBar bars).high x) = max (lastBar bars).high x
      rw [← max_assoc, max_self]

theorem buildRow_absorb (bars : List Bar) (fd : Direction) (st : Option ℚ)
    (spy pref : Bool) (ne : Option ℤ) (now : ℤ) :
    buildRow bars fd (some (extremeOf bars fd st)) spy pref ne now
      = buildRow bars fd st spy pref ne now := by
  rw [buildRow, buildRow, extremeOf_idem]

theorem eraseTs_buildRow (bars : List Bar) (fd : Direction) (st : Option ℚ)
    (spy pref : Bool) (ne : Option ℤ) (now : ℤ) :
    eraseTs (buildRow bars fd st spy pref ne now) = buildRow bars fd st spy pref ne 0 := rfl

theorem applyOutcome_ne {w : Watchlist} {s t : String} {o : ScanOutcome} (h : t ≠ s) :
    applyOutcome w s o t = w t := by
  cases o <;> simp [applyOutcome, upsertRow, deleteRow, h]

theorem applyOutcome_self (w : Watchlist) (s : String) (o : ScanOutcome) :
    applyOutcome w s o s
      = (match o with | .skip => w s | .remove => none | .upsert c => some c) := by
  cases o <;> simp [applyOutcome, upsertRow, deleteRow]

theorem scanFold_cons (v : MarketView) (now : ℤ) (a : String) (t : List String)
    (w : Watchlist) :
    scanFold v now (a :: t) w
      = scanFold v now t (applyOutcome w a
          (runSymbolScan (v.bars a) (w a) (spyUp v.spyCloses)
            (is_on_preferred_watchlist v.prefList a) (v.nextEarnings a) now)) := rfl

theorem scanFold_not_mem {v : MarketView} {now : ℤ} {l : List String} {w : Watchlist}
    {s : String} (h : s ∉ l) : scanFold v now l w s = w s := by
  induction l generalizing w with
  | nil => rfl
  | cons a t ih =>
    rw [scanFold_cons]
    have hs : s ∉ t := fun hmem => h (List.mem_cons_of_mem _ hmem)
    have hsa : s ≠ a := fun he => h (he ▸ List.mem_cons_self a t)
    rw [ih hs, applyOutcome_ne hsa]

theorem scanFold_mem {v : MarketView} {now : ℤ} {l : List String} {w : Watchlist}
    {s : String} (hnd : l.Nodup) (hs : s ∈ l) :
    scanFold v now l w s
      = stepRow (v.bars s) (spyUp v.spyCloses) (is_on_preferred_watchlist v.prefList s)
          (v.nextEarnings s) now (w s) := by
  induction l generalizing w with
  | nil => cases hs
  | cons a t ih =>
    rw [scanFold_cons]
    rcases List.mem_cons.mp hs with rfl | hst
    · have hat : s ∉ t := (List.nodup_cons.mp hnd).1
      rw [scanFold_not_mem hat, applyOutcome_self, stepRow]
    · have hat : a ∉ t := (List.nodup_cons.mp hnd).1
      have hsa : s ≠ a := fun he => hat (he ▸ hst)
      rw [ih (List.nodup_cons.mp hnd).2 hst, applyOutcome_ne hsa]

theorem runScanner_mem {v : MarketView} {now : ℤ} {w : Watchlist} {s : String}
    (hnd : v.tickers.Nodup) (hs : s ∈ v.tickers) :
    runScanner v now w s
      = stepRow (v.bars s) (spyUp v.spyCloses) (is_on_preferred_watchlist v.prefList s)
          (v.nextEarnings s) now (w s) :=
  scanFold_mem hnd hs

theorem runScanner_not_mem {v : MarketView} {now : ℤ} {w : Watchlist} {s : String}
    (h : s ∉ v.tickers) : runScanner v now w s = w s :=
  scanFold_not_mem h

theorem stepRow_skip {bars : List Bar} {spy pref : Bool} {ne : Option ℤ} {now : ℤ}
    {r : Option Candidate} (h : runSymbolScan bars r spy pref ne now = .skip) :
    stepRow bars spy pref ne now r = r := by
  rw [stepRow, h]

theorem stepRow_remove {bars : List Bar} {spy pref : Bool} {ne : Option ℤ} {now : ℤ}
    {r : Option Candidate} (h : runSymbolScan bars r spy pref ne now = .remove) :
    stepRow bars spy pref ne now r = none := by
  rw [stepRow, h]

theorem stepRow_upsert {bars : List Bar} {spy pref : Bool} {ne : Option ℤ} {now : ℤ}
    {r : Option Candidate} {c : Candidate}
    (h : runSymbolScan bars r spy pref ne now = .upsert c) :
    stepRow bars spy pref ne now r = some c := by
  rw [stepRow, h]

theorem bind_buildRow (bars : List Bar) (fd : Direction) (st : Option ℚ)
    (spy pref : Bool) (ne : Option ℤ) (now : ℤ) :
    (some (buildRow bars fd st spy pref ne now)).bind (fun e => e.extreme_price)
      = some (extremeOf bars fd st) := rfl

theorem direction_buildRow (bars : List Bar) (fd : Direction) (st : Option ℚ)
    (spy pref : Bool) (ne : Option ℤ) (now : ℤ) :
    (buildRow bars fd st spy pref ne now).direction = fd := rfl

theorem stepRow_idem (bars : List Bar) (spy pref : Bool) (ne : Option ℤ)
    (now₁ now₂ : ℤ) (r : Option Candidate) :
    Option.map eraseTs (stepRow bars spy pref ne now₂ (stepRow bars spy pref ne now₁ r))
      = Option.map eraseTs (stepRow bars spy pref ne now₁ r) := by
  by_cases h50 : bars.length < 50
  · rw [stepRow_skip (scan_skip_short h50), stepRow_skip (scan_skip_short h50)]
  by_cases hw : (get_weekly_rsi_resampled bars).1 = none
  · rw [stepRow_skip (scan_skip_weekly h50 hw), stepRow_skip (scan_skip_weekly h50 hw)]
  rcases hds : directionSignal bars with _ | d
  · cases r with
    | none =>
      have hfd : finalDir (directionSignal bars) (none : Option Candidate) = none := by
        rw [hds]
        rfl
      rw [stepRow_skip (scan_skip_nodir h50 hw hfd), stepRow_skip (scan_skip_nodir h50 hw hfd)]
    | some e =>
      have hfd : finalDir (directionSignal bars) (some e) = some e.direction := by
        rw [hds]
        rfl
      by_cases hinv : (e.direction = .LONG ∧ 45 < currRsiOf bars)
          ∨ (e.direction = .SHORT ∧ currRsiOf bars < 55)
      · rw [stepRow_remove (scan_remove h50 hw hfd hinv)]
        have hfd2 : finalDir (directionSignal bars) (none : Option Candidate) = none := by
          rw [hds]
          rfl
        rw [stepRow_skip (scan_skip_nodir h50 hw hfd2)]
      · rw [stepRow_upsert (scan_upsert h50 hw hfd hinv)]
        have hfd2 : finalDir (directionSignal bars)
            (some (buildRow bars e.direction ((some e).bind (fun x => x.extreme_price))
              spy pref ne now₁)) = some e.direction := by
          rw [hds]
          rfl
        rw [stepRow_upsert (scan_upsert h50 hw hfd2 hinv)]
        rw [bind_buildRow]
        simp only [Option.map_some']
        rw [eraseTs_buildRow, eraseTs_buildRow, buildRow_absorb]
  · have hfd : ∀ x : Option Candidate, finalDir (directionSignal bars) x = some d := by
      intro x
      rw [hds]
      rfl
    by_cases hinv : (d = .LONG ∧ 45 < currRsiOf bars) ∨ (d = .SHORT ∧ currRsiOf bars < 55)
    · rw [stepRow_remove (scan_remove h50 hw (hfd r) hinv),
        stepRow_remove (scan_remove h50 hw (hfd none) hinv)]
    · rw [stepRow_upsert (scan_upsert h50 hw (hfd r) hinv)]
      rw [stepRow_upsert (scan_upsert h50 hw (hfd _) hinv)]
      rw [bind_buildRow]
      simp only [Option.map_some']
      rw [eraseTs_buildRow, eraseTs_buildRow, buildRow_absorb]

theorem floor_cast_of_isInteger {q : ℚ} (h : isIntegerQ q = true) : ((⌊q⌋ : ℤ) : ℚ) = q := by
  have hd : q.den = 1 := by simpa [isIntegerQ] using h
  have hq : ((q.num : ℤ) : ℚ) = q := (Rat.den_eq_one_iff q).mp hd
  rw [← hq, Int.floor_intCast]

theorem ceil_cast_of_isInteger {q : ℚ} (h : isIntegerQ q = true) : ((⌈q⌉ : ℤ) : ℚ) = q := by
  have hd : q.den = 1 := by simpa [isIntegerQ] using h
  have hq : ((q.num : ℤ) : ℚ) = q := (Rat.den_eq_one_iff q).mp hd
  rw [← hq, Int.ceil_intCast]

/-- C6: `calculate_formatted_stop` rounds one whole unit further from entry:
LONG yields the floor of the extreme, one more unit down when the extreme is
already integral; SHORT mirrors with the ceiling and one unit up; in
particular 150.00 LONG gives 149.00, 150.25 SHORT gives 151.00, and 150.00
SHORT gives 151.00. -/
theorem claim_C6_stop_rounding :
    (∀ p : ℚ, calculate_formatted_stop p .LONG
        = (if isIntegerQ p then (⌊p⌋ : ℚ) - 1 else (⌊p⌋ : ℚ)))
    ∧ (∀ p : ℚ, calculate_formatted_stop p .SHORT
        = (if isIntegerQ p then (⌈p⌉ : ℚ) + 1 else (⌈p⌉ : ℚ)))
    ∧ calculate_formatted_stop 150 .LONG = 149
    ∧ calculate_formatted_stop (601 / 4) .SHORT = 151
    ∧ calculate_formatted_stop 150 .SHORT = 151 := by
  have hint : isIntegerQ (150 : ℚ) = true := by
    simp [isIntegerQ]
  have hfrac : isIntegerQ ((601 : ℚ) / 4) = false := by
    simp only [isIntegerQ, beq_eq_false_iff_ne, ne_eq]
    norm_num
  refine ⟨?_, ?_, ?_, ?_, ?_⟩
  · intro p
    show (if isIntegerQ p then p - 1 else ((⌊p⌋ : ℤ) : ℚ)) = _
    by_cases hp : isIntegerQ p = true
    · rw [if_pos hp, if_pos hp, floor_cast_of_isInteger hp]
    · rw [if_neg hp, if_neg hp]
  · intro p
    show (if isIntegerQ p then p + 1 else ((⌈p⌉ : ℤ) : ℚ)) = _
    by_cases hp : isIntegerQ p = true
    · rw [if_pos hp, if_pos hp, ceil_cast_of_isInteger hp]
    · rw [if_neg hp, if_neg hp]
  · show (if isIntegerQ (150 : ℚ) then (150 : ℚ) - 1 else ((⌊(150 : ℚ)⌋ : ℤ) : ℚ)) = 149
    rw [if_pos hint]
    norm_num
  · show (if isIntegerQ ((601 : ℚ) / 4) then (601 : ℚ) / 4 + 1 else ((⌈(601 : ℚ) / 4⌉ : ℤ) : ℚ)) = 151
    rw [if_neg (by rw [hfrac]; exact Bool.false_ne_true)]
    have hc : ⌈(601 : ℚ) / 4⌉ = 151 := by
      refine Int.ceil_eq_iff.mpr ⟨by norm_num, by norm_num⟩
    rw [hc]
    norm_num
  · show (if isIntegerQ (150 : ℚ) then (150 : ℚ) + 1 else ((⌈(150 : ℚ)⌉ : ℤ) : ℚ)) = 151
    rw [if_pos hint]
    norm_num

/-- C7 counterexample: with no SPY data at all (fewer than two reference
bars) the rise flag defaults to true and the alignment contribution for a
LONG candidate is true, not false, so the fail-closed part of the claim is
false on the code. -/
theorem claim_C7_counterexample :
    spyUp [] = true ∧ spy_alignmentOf .LONG (spyUp []) = true := by
  exact ⟨rfl, rfl⟩

/-- C7 amended: the broad-market alignment contribution is computed from
the last two SPY closes only (not from reference RSI and MACD slopes): for
LONG it is true exactly when the latest close exceeds the previous one,
for SHORT exactly when it does not; and with fewer than two reference bars
the rise flag defaults to true, so alignment defaults to true for LONG and
false for SHORT. -/
theorem claim_C7_amended :
    (∀ (a b : ℚ) (rest : List ℚ),
        (spy_alignmentOf .LONG (spyUp (a :: b :: rest)) = true ↔ b < a)
        ∧ (spy_alignmentOf .SHORT (spyUp (a :: b :: rest)) = true ↔ a ≤ b))
    ∧ (∀ l : List ℚ, l.length ≤ 1 →
        spyUp l = true ∧ spy_alignmentOf .LONG (spyUp l) = true
          ∧ spy_alignmentOf .SHORT (spyUp l) = false) := by
  constructor
  · intro a b rest
    have hlen : 1 < (a :: b :: rest).length := by
      simp only [List.length_cons]
      omega
    have hup : spyUp (a :: b :: rest) = decide (b < a) := by
      rw [spyUp, if_pos hlen]
      rfl
    constructor
    · rw [spy_alignmentOf, if_pos rfl, hup]
      simp
    · rw [spy_alignmentOf, if_neg (by simp), hup]
      simp
  · intro l hl
    have hun : spyUp l = true := by
      rw [spyUp, if_neg (by omega)]
    refine ⟨hun, ?_, ?_⟩
    · rw [spy_alignmentOf, if_pos rfl, hun]
    · rw [spy_alignmentOf, if_neg (by simp), hun]
      rfl

theorem claim_C7_amended_witness :
    spyUp ([] : List ℚ) = true ∧ spy_alignmentOf .LONG (spyUp ([] : List ℚ)) = true
      ∧ spy_alignmentOf .SHORT (spyUp ([] : List ℚ)) = false :=
  claim_C7_amended.2 [] (by decide)

/-- C9: the weekly resample keeps exactly the nonempty week-ending-Friday
buckets with first/max/min/last aggregation, `get_weekly_rsi_resampled`
returns `(none, none)` whenever fewer than 15 weekly buckets remain, both
components are non-null with at least 15 buckets, and a `none` first
component makes the scan skip the symbol. -/
theorem claim_C9_weekly_rsi (bars : List Bar) :
    ((resampleWFRI bars).length < 15 → get_weekly_rsi_resampled bars = (none, none))
    ∧ (15 ≤ (resampleWFRI bars).length →
        (get_weekly_rsi_resampled bars).1.isSome ∧ (get_weekly_rsi_resampled bars).2.isSome)
    ∧ (∀ (ex : Option Candidate) (spy pref : Bool) (ne : Option ℤ) (now : ℤ),
        ¬ bars.length < 50 → (get_weekly_rsi_resampled bars).1 = none →
          runSymbolScan bars ex spy pref ne now = .skip) := by
  refine ⟨get_weekly_lt, fun h => ?_, fun ex spy pref ne now h50 hw => scan_skip_weekly h50 hw⟩
  rcases get_weekly_some h with ⟨h1, h2⟩
  rw [h1, h2]
  exact ⟨rfl, rfl⟩

theorem claim_C9_witness :
    (get_weekly_rsi_resampled ex20Bars).1.isSome
      ∧ (get_weekly_rsi_resampled ex20Bars).2.isSome :=
  (claim_C9_weekly_rsi ex20Bars).2.1 (by decide)

/-- C10 counterexample: a run over a universe containing only a symbol
with no history leaves a row for an untracked symbol untouched even though
its `last_updated` lies 1000 days before the run, far beyond any 21 to 28
day retention window: the scanner contains no retention pruning. -/
theorem claim_C10_counterexample :
    runScanner viewBare 0 wlStaleB "B" = some oldRow
      ∧ oldRow.last_updated = -1000
      ∧ 28 < (0 : ℤ) - oldRow.last_updated := by
  refine ⟨?_, rfl, by norm_num [oldRow]⟩
  have h : runScanner viewBare 0 wlStaleB "B" = wlStaleB "B" :=
    runScanner_not_mem (by decide)
  rw [h]
  simp [wlStaleB]

/-- C10 amended: the scan performs no retention pruning at all: the row of
any symbol outside the scanned universe is left exactly as it was whatever
its age, and a tracked symbol with insufficient history is skipped with its
row untouched; rows disappear only through the room-boundary invalidation. -/
theorem claim_C10_amended (v : MarketView) (now : ℤ) (w : Watchlist) (s : String) :
    (s ∉ v.tickers → runScanner v now w s = w s)
    ∧ (v.tickers.Nodup → s ∈ v.tickers → (v.bars s).length < 50 →
        runScanner v now w s = w s) := by
  constructor
  · exact runScanner_not_mem
  · intro hnd hs h50
    rw [runScanner_mem hnd hs, stepRow_skip (scan_skip_short h50)]

theorem claim_C10_amended_witness :
    runScanner viewBare 0 wlStaleB "B" = wlStaleB "B" :=
  (claim_C10_amended viewBare 0 wlStaleB "B").1 (by decide)

set_option maxRecDepth 8000 in
theorem downBars_curr : currRsiOf downBars = 0 := by
  rw [currRsi_eq_rsiVal (by decide)]
  norm_num [rsiVal, closesOf, downBars, flatBar, upMoves, downMoves, diffs,
    ewmAlpha, ewmGo, List.getD]

set_option maxRecDepth 8000 in
set_option maxHeartbeats 2000000 in
theorem riseFall_curr_bounds :
    45 < currRsiOf riseFallBars ∧ currRsiOf riseFallBars < 55 := by
  rw [currRsi_eq_rsiVal (by decide)]
  constructor <;>
    norm_num [rsiVal, closesOf, riseFallBars, flatBar, upMoves, downMoves, diffs,
      ewmAlpha, ewmGo, List.getD]

theorem riseFall_dsig : directionSignal riseFallBars = none := by
  obtain ⟨h45, h55⟩ := riseFall_curr_bounds
  rw [directionSignal, if_neg (fun hc => absurd hc.2 (not_le.mpr h45)),
    if_neg (fun hc => absurd hc.2 (not_le.mpr h55))]

/-- C1: whenever a per-symbol iteration reaches the gate stage (enough
history, enough weekly history, a resolved direction, no invalidation),
the row is upserted — never removed — and its `is_ready` flag is true
exactly when all four hard gates hold for the resolved direction: daily
RSI slope, weekly RSI slope, MACD-line slope, and an earnings report more
than 14 days away; making any one gate false makes `is_ready` false while
the row is still written.  An unknown earnings date counts as 999 days,
hence safe. -/
theorem claim_C1_ready_gates (bars : List Bar) (ex : Option Candidate)
    (spy pref : Bool) (ne : Option ℤ) (now : ℤ) (fd : Direction)
    (h50 : ¬ bars.length < 50) (hw : ¬ (get_weekly_rsi_resampled bars).1 = none)
    (hfd : finalDir (directionSignal bars) ex = some fd)
    (hninv : ¬ ((fd = .LONG ∧ 45 < currRsiOf bars) ∨ (fd = .SHORT ∧ currRsiOf bars < 55))) :
    (∃ c, runSymbolScan bars ex spy pref ne now = .upsert c
      ∧ (c.is_ready = true ↔
          d_rsi_okOf bars fd = true ∧ w_rsi_okOf bars fd = true ∧ macd_okOf bars fd = true
            ∧ 14 < daysToEarningsOf ne))
    ∧ 14 < daysToEarningsOf none := by
  constructor
  · refine ⟨_, scan_upsert h50 hw hfd hninv, ?_⟩
    show is_readyOf bars fd ne = true ↔ _
    rw [is_readyOf]
    simp [Bool.and_eq_true, decide_eq_true_eq, and_assoc]
  · norm_num [daysToEarningsOf]

theorem claim_C1_witness :
    (∃ c, runSymbolScan downBars none true false none 0 = .upsert c
      ∧ (c.is_ready = true ↔
          d_rsi_okOf downBars .LONG = true ∧ w_rsi_okOf downBars .LONG = true
            ∧ macd_okOf downBars .LONG = true ∧ 14 < daysToEarningsOf none))
    ∧ 14 < daysToEarningsOf none :=
  claim_C1_ready_gates downBars none true false none 0 .LONG
    (by decide)
    (get_weekly_fst_ne_none (by decide))
    (by rw [dsig_long (by decide) (by rw [downBars_curr]; norm_num)]; rfl)
    (by
      rw [downBars_curr]
      rintro (⟨_, h⟩ | ⟨h, _⟩)
      · exact absurd h (by norm_num)
      · exact Direction.noConfusion h)

/-- C2: a tracked symbol with at least 50 daily bars, at least 15 weekly
buckets, and a current daily RSI of at most 30 ends the scan with a
watchlist row whose direction is LONG: the current value is itself inside
the 28-bar lookback, so the oversold touch holds, the current RSI is
within the 45 room band, the fresh LONG signal wins direction resolution,
and the invalidation branch cannot fire. -/
theorem claim_C2_oversold_long (v : MarketView) (now : ℤ) (w : Watchlist) (s : String)
    (hnd : v.tickers.Nodup) (hs : s ∈ v.tickers)
    (h50 : 50 ≤ (v.bars s).length) (h15 : 15 ≤ (resampleWFRI (v.bars s)).length)
    (h30 : currRsiOf (v.bars s) ≤ 30) :
    ∃ c, runScanner v now w s = some c ∧ c.direction = .LONG := by
  have hds := dsig_long h50 h30
  have hfd : finalDir (directionSignal (v.bars s)) (w s) = some .LONG := by
    rw [hds]
    rfl
  have hninv : ¬ ((Direction.LONG = .LONG ∧ 45 < currRsiOf (v.bars s))
      ∨ (Direction.LONG = .SHORT ∧ currRsiOf (v.bars s) < 55)) := by
    rintro (⟨_, h⟩ | ⟨h, _⟩)
    · linarith
    · exact Direction.noConfusion h
  rw [runScanner_mem hnd hs,
    stepRow_upsert (scan_upsert (not_lt.mpr h50) (get_weekly_fst_ne_none h15) hfd hninv)]
  exact ⟨_, rfl, rfl⟩

theorem claim_C2_witness :
    ∃ c, runScanner viewDown 0 wlEmpty "A" = some c ∧ c.direction = .LONG :=
  claim_C2_oversold_long viewDown 0 wlEmpty "A" (by decide) (by decide) (by decide)
    (by decide)
    (by
      have hb : viewDown.bars "A" = downBars := rfl
      rw [hb, downBars_curr]
      norm_num)

/-- C3: when the resolved direction is LONG while the current daily RSI
exceeds 45 (or SHORT while it is below 55), the per-symbol iteration ends
in a delete: the outcome is `remove`, no row is upserted, and after the
scan the watchlist holds nothing for the symbol. -/
theorem claim_C3_invalidation (v : MarketView) (now : ℤ) (w : Watchlist) (s : String)
    (fd : Direction) (hnd : v.tickers.Nodup) (hs : s ∈ v.tickers)
    (h50 : ¬ (v.bars s).length < 50)
    (hw : ¬ (get_weekly_rsi_resampled (v.bars s)).1 = none)
    (hfd : finalDir (directionSignal (v.bars s)) (w s) = some fd)
    (hinv : (fd = .LONG ∧ 45 < currRsiOf (v.bars s))
      ∨ (fd = .SHORT ∧ currRsiOf (v.bars s) < 55)) :
    runSymbolScan (v.bars s) (w s) (spyUp v.spyCloses)
        (is_on_preferred_watchlist v.prefList s) (v.nextEarnings s) now = .remove
      ∧ runScanner v now w s = none := by
  have h1 : runSymbolScan (v.bars s) (w s) (spyUp v.spyCloses)
      (is_on_preferred_watchlist v.prefList s) (v.nextEarnings s) now = .remove :=
    scan_remove h50 hw hfd hinv
  refine ⟨h1, ?_⟩
  rw [runScanner_mem hnd hs, stepRow_remove h1]

theorem claim_C3_witness :
    runSymbolScan (viewInvalid.bars "A") (wlLongA "A") (spyUp viewInvalid.spyCloses)
        (is_on_preferred_watchlist viewInvalid.prefList "A") (viewInvalid.nextEarnings "A") 0
        = .remove
      ∧ runScanner viewInvalid 0 wlLongA "A" = none :=
  claim_C3_invalidation viewInvalid 0 wlLongA "A" .LONG (by decide) (by decide)
    (by decide)
    (get_weekly_fst_ne_none (by decide))
    (by
      have hb : viewInvalid.bars "A" = riseFallBars := rfl
      have hwl : wlLongA "A" = some rowLongStored := by simp [wlLongA]
      rw [hb, riseFall_dsig, hwl]
      rfl)
    (Or.inl ⟨rfl, by
      have hb : viewInvalid.bars "A" = riseFallBars := rfl
      rw [hb]
      exact riseFall_curr_bounds.1⟩)

/-- C4: whenever the per-symbol iteration upserts, the stored trailing
extreme combines monotonically: with a stored value `x` the new extreme is
`min(today_low, x)` for LONG (hence at most `x`) and `max(today_high, x)`
for SHORT (hence at least `x`); with no stored value it seeds with the
adverse extreme of the last bar. -/
theorem claim_C4_extreme_monotone (bars : List Bar) (ex : Option Candidate)
    (spy pref : Bool) (ne : Option ℤ) (now : ℤ) (fd : Direction)
    (h50 : ¬ bars.length < 50) (hw : ¬ (get_weekly_rsi_resampled bars).1 = none)
    (hfd : finalDir (directionSignal bars) ex = some fd)
    (hninv : ¬ ((fd = .LONG ∧ 45 < currRsiOf bars) ∨ (fd = .SHORT ∧ currRsiOf bars < 55))) :
    ∃ c, runSymbolScan bars ex spy pref ne now = .upsert c
      ∧ (∀ x : ℚ, ex.bind (fun e => e.extreme_price) = some x →
          c.extreme_price = some (if fd = .LONG then min (lastBar bars).low x
            else max (lastBar bars).high x)
          ∧ (fd = .LONG → ∃ y : ℚ, c.extreme_price = some y ∧ y ≤ x)
          ∧ (fd = .SHORT → ∃ y : ℚ, c.extreme_price = some y ∧ x ≤ y))
      ∧ (ex.bind (fun e => e.extreme_price) = none →
          c.extreme_price = some (if fd = .LONG then (lastBar bars).low
            else (lastBar bars).high)) := by
  refine ⟨_, scan_upsert h50 hw hfd hninv, ?_, ?_⟩
  · intro x hx
    refine ⟨?_, ?_, ?_⟩
    · show some (extremeOf bars fd (ex.bind (fun e => e.extreme_price))) = _
      rw [hx]
      rfl
    · rintro rfl
      refine ⟨min (lastBar bars).low x, ?_, min_le_right _ _⟩
      show some (extremeOf bars .LONG (ex.bind (fun e => e.extreme_price))) = _
      rw [hx]
      rfl
    · rintro rfl
      refine ⟨max (lastBar bars).high x, ?_, le_max_right _ _⟩
      show some (extremeOf bars .SHORT (ex.bind (fun e => e.extreme_price))) = _
      rw [hx]
      rfl
  · intro hx
    show some (extremeOf bars fd (ex.bind (fun e => e.extreme_price))) = _
    rw [hx]
    rfl

theorem claim_C4_witness :
    ∃ c, runSymbolScan downBars (some rowLongStored) true false none 0 = .upsert c
      ∧ (∀ x : ℚ, (some rowLongStored).bind (fun e => e.extreme_price) = some x →
          c.extreme_price = some (if Direction.LONG = .LONG then min (lastBar downBars).low x
            else max (lastBar downBars).high x)
          ∧ (Direction.LONG = .LONG → ∃ y : ℚ, c.extreme_price = some y ∧ y ≤ x)
          ∧ (Direction.LONG = .SHORT → ∃ y : ℚ, c.extreme_price = some y ∧ x ≤ y))
      ∧ ((some rowLongStored).bind (fun e => e.extreme_price) = none →
          c.extreme_price = some (if Direction.LONG = .LONG then (lastBar downBars).low
            else (lastBar downBars).high)) :=
  claim_C4_extreme_monotone downBars (some rowLongStored) true false none 0 .LONG
    (by decide)
    (get_weekly_fst_ne_none (by decide))
    (by rw [dsig_long (by decide) (by rw [downBars_curr]; norm_num)]; rfl)
    (by
      rw [downBars_curr]
      rintro (⟨_, h⟩ | ⟨h, _⟩)
      · exact absurd h (by norm_num)
      · exact Direction.noConfusion h)

/-- C5: running the scan twice in immediate succession over the very same
inputs (bars, earnings, SPY context, preferred list) leaves every
watchlist row unchanged apart from the `last_updated` stamp: direction,
extreme, stop, entry, scores, gate booleans, readiness and trail all agree
between the first and second run. -/
theorem claim_C5_idempotent (v : MarketView) (now₁ now₂ : ℤ) (w : Watchlist) (s : String)
    (hnd : v.tickers.Nodup) :
    Option.map eraseTs (runScanner v now₂ (runScanner v now₁ w) s)
      = Option.map eraseTs (runScanner v now₁ w s) := by
  by_cases hs : s ∈ v.tickers
  · rw [runScanner_mem hnd hs, runScanner_mem hnd hs, stepRow_idem]
  · rw [runScanner_not_mem hs, runScanner_not_mem hs]

theorem claim_C5_witness :
    Option.map eraseTs (runScanner viewDown 1 (runScanner viewDown 0 wlEmpty) "A")
      = Option.map eraseTs (runScanner viewDown 0 wlEmpty "A") :=
  claim_C5_idempotent viewDown 0 1 wlEmpty "A" (by decide)

/-- C8 counterexample: fifty decreasing closes give a fresh LONG signal
while the stored row is SHORT with extreme 140; the last bar has low 150,
yet the upserted extreme is the combination min(150, 140) = 140 taken with
the extreme stored under the old SHORT direction — not the fresh seed 150
the claimed reset would produce. -/
theorem claim_C8_counterexample :
    (match runSymbolScan downBars (some rowShortStored) true false none 0 with
      | .upsert c => c.extreme_price
      | _ => none) = some 140
    ∧ (lastBar downBars).low = 150
    ∧ ¬ ((140 : ℚ) = 150) := by
  have hds : directionSignal downBars = some .LONG :=
    dsig_long (by decide) (by rw [downBars_curr]; norm_num)
  have hfd : finalDir (directionSignal downBars) (some rowShortStored) = some .LONG := by
    rw [hds]
    rfl
  have hninv : ¬ ((Direction.LONG = .LONG ∧ 45 < currRsiOf downBars)
      ∨ (Direction.LONG = .SHORT ∧ currRsiOf downBars < 55)) := by
    rw [downBars_curr]
    rintro (⟨_, h⟩ | ⟨h, _⟩)
    · exact absurd h (by norm_num)
    · exact Direction.noConfusion h
  have h1 : runSymbolScan downBars (some rowShortStored) true false none 0
      = .upsert (buildRow downBars .LONG
          ((some rowShortStored).bind (fun e => e.extreme_price)) true false none 0) :=
    scan_upsert (by decide) (get_weekly_fst_ne_none (by decide)) hfd hninv
  have hlow : (lastBar downBars).low = 150 := by
    norm_num [lastBar, downBars, flatBar, List.getD]
  refine ⟨?_, hlow, by norm_num⟩
  rw [h1]
  show some (extremeOf downBars .LONG (some 140)) = some 140
  show some (min (lastBar downBars).low 140) = some 140
  rw [hlow]
  norm_num

/-- C8 amended: when the fresh signal direction differs from the stored
direction of the row, the scan does not reset the dependent state: the
upserted row takes the fresh direction but its extreme is still combined
with the value stored under the old direction, `min(today_low, stored)`
for a flip to LONG and `max(today_high, stored)` for a flip to SHORT; no
touch date exists in this code at all. -/
theorem claim_C8_amended (bars : List Bar) (e : Candidate) (spy pref : Bool)
    (ne : Option ℤ) (now : ℤ) (d : Direction) (x : ℚ)
    (h50 : ¬ bars.length < 50) (hw : ¬ (get_weekly_rsi_resampled bars).1 = none)
    (hds : directionSignal bars = some d) (hflip : ¬ d = e.direction)
    (hx : e.extreme_price = some x)
    (hninv : ¬ ((d = .LONG ∧ 45 < currRsiOf bars) ∨ (d = .SHORT ∧ currRsiOf bars < 55))) :
    ∃ c, runSymbolScan bars (some e) spy pref ne now = .upsert c
      ∧ c.direction = d
      ∧ c.extreme_price = some (if d = .LONG then min (lastBar bars).low x
          else max (lastBar bars).high x) := by
  have hfd : finalDir (directionSignal bars) (some e) = some d := by
    rw [hds]
    rfl
  refine ⟨_, scan_upsert h50 hw hfd hninv, rfl, ?_⟩
  show some (extremeOf bars d ((some e).bind (fun q => q.extreme_price))) = _
  have hb : (some e).bind (fun q => q.extreme_price) = some x := hx
  rw [hb]
  cases d <;> rfl

theorem claim_C8_amended_witness :
    ∃ c, runSymbolScan downBars (some rowShortStored) true false none 0 = .upsert c
      ∧ c.direction = .LONG
      ∧ c.extreme_price = some (if Direction.LONG = .LONG then min (lastBar downBars).low 140
          else max (lastBar downBars).high 140) :=
  claim_C8_amended downBars rowShortStored true false none 0 .LONG 140
    (by decide)
    (get_weekly_fst_ne_none (by decide))
    (dsig_long (by decide) (by rw [downBars_curr]; norm_num))
    (by decide)
    rfl
    (by
      rw [downBars_curr]
      rintro (⟨_, h⟩ | ⟨h, _⟩)
      · exact absurd h (by norm_num)
      · exact Direction.noConfusion h)
